import Mathlib

/-!
Verification of the CHIP-8 emulator (`src/chip8emu.cpp`) against its
natural-language specification.

The machine state and every opcode handler below are shallow embeddings of
the corresponding C++ globals and functions.  C++ `BYTE` (unsigned char)
arrays are modelled as `Nat → Nat` maps whose stores truncate modulo 256
exactly where the C++ performs an implicit int-to-BYTE conversion; `WORD`
(unsigned short) stores truncate modulo 65536.  The `std::vector<WORD>`
call stack is modelled as a `List Nat` whose head is the vector's back
(`push_back` is cons, `pop_back` is tail, `m_stack[m_stack.size()-1]` is
head); popping the empty stack, which is out-of-bounds in the C++, is
modelled by `Option` (`none`).
-/

namespace Chip8Emu

/-- Pointwise store into a one-dimensional array modelled as a map. -/
def upd (f : Nat → Nat) (i v : Nat) : Nat → Nat :=
  fun j => if j = i then v else f j

/-- Pointwise store into a two-dimensional array modelled as a map. -/
def upd2 (f : Nat → Nat → Nat) (x y v : Nat) : Nat → Nat → Nat :=
  fun a => if a = x then upd (f x) y v else f a

theorem upd_same (f : Nat → Nat) (i v : Nat) : upd f i v i = v := by
  simp [upd]

theorem upd_ne (f : Nat → Nat) {i j : Nat} (v : Nat) (h : j ≠ i) :
    upd f i v j = f j := by
  simp [upd, h]

theorem upd2_same (f : Nat → Nat → Nat) (x y v : Nat) : upd2 f x y v x y = v := by
  simp [upd2, upd]

theorem upd2_ne (f : Nat → Nat → Nat) {x y a b : Nat} (v : Nat)
    (h : a ≠ x ∨ b ≠ y) : upd2 f x y v a b = f a b := by
  rcases h with h | h
  · simp [upd2, h]
  · by_cases ha : a = x
    · subst ha; simp [upd2, upd, h]
    · simp [upd2, ha]

/-- Truncation performed by the C++ `& 0xFF` mask on the 9-bit sum. -/
theorem and255_eq_mod (x : Nat) : x &&& 255 = x % 256 := by
  simpa using Nat.and_pow_two_sub_one_eq_mod x 8

/-- The value stored by a C++ `BYTE = int` conversion of the difference
`a - b` of two `BYTE` values: unsigned-char truncation, i.e. the 8-bit
wraparound difference. -/
def byteSub (a b : Nat) : Nat := (256 + a - b) % 256

/--
The emulator's hardware state: the C++ globals
`m_GameMemory`, `m_Registers`, `m_AddressI`, `m_ProgramCounter`,
`m_stack`, `m_ScreenData`, `m_KeysPressed`, `m_DelayTimer`, `m_SoundTimer`.
-/
structure Chip8 where
  gameMemory : Nat → Nat
  registers : Nat → Nat
  addressI : Nat
  programCounter : Nat
  stack : List Nat
  screenData : Nat → Nat → Nat
  keysPressed : Nat → Bool
  delayTimer : Nat
  soundTimer : Nat

/-- The declared size of `m_GameMemory` in the C++: `BYTE m_GameMemory[0xfff]`. -/
def memSize : Nat := 0xfff

/-- The load offset used by `CPUReset`: `fread(&m_GameMemory[0x200], ...)`. -/
def loadOffset : Nat := 0x200

/-- The byte count `CPUReset` asks `fread` for: `fread(..., 0xfff, 1, in)`. -/
def freadCount : Nat := 0xfff

/-- The zeroed machine state after `CPUReset`'s register/key reset, before
font and game loading (`m_ProgramCounter = 0x200`, registers 0, empty stack). -/
def initState : Chip8 where
  gameMemory := fun _ => 0
  registers := fun _ => 0
  addressI := 0
  programCounter := 0x200
  stack := []
  screenData := fun _ _ => 0
  keysPressed := fun _ => false
  delayTimer := 0
  soundTimer := 0

/-- Opcode 8XY4: `sum = VX + VY; VF = (sum > 255) ? 1 : 0; VX = sum & 0xFF`,
in the source's order: the flag store precedes the destination store. -/
def Opcode8XY4 (op : Nat) (s : Chip8) : Chip8 :=
  let x := (op &&& 0xF00) >>> 8
  let y := (op &&& 0x0F0) >>> 4
  let sum := s.registers x + s.registers y
  let s1 : Chip8 := { s with registers := upd s.registers 0xF (if sum > 255 then 1 else 0) }
  { s1 with registers := upd s1.registers x (sum &&& 0xFF) }

/-- Opcode 8XY5: `VF = 1; xval = VX; yval = VY; if (yval > xval) VF = 0;
VX = xval - yval` — note the operand reads happen after the `VF = 1` preset. -/
def Opcode8XY5 (op : Nat) (s : Chip8) : Chip8 :=
  let s1 : Chip8 := { s with registers := upd s.registers 0xF 1 }
  let regx := (op &&& 0xF00) >>> 8
  let regy := (op &&& 0x0F0) >>> 4
  let xval := s1.registers regx
  let yval := s1.registers regy
  let s2 : Chip8 := if yval > xval then { s1 with registers := upd s1.registers 0xF 0 } else s1
  { s2 with registers := upd s2.registers regx (byteSub xval yval) }

/-- Opcode 8XY7: `VF = 1; xval = VX; yval = VY; if (xval > yval) VF = 0;
VX = yval - xval` — operand reads after the `VF = 1` preset, as in the source. -/
def Opcode8XY7 (op : Nat) (s : Chip8) : Chip8 :=
  let s1 : Chip8 := { s with registers := upd s.registers 0xF 1 }
  let regx := (op &&& 0xF00) >>> 8
  let regy := (op &&& 0x0F0) >>> 4
  let xval := s1.registers regx
  let yval := s1.registers regy
  let s2 : Chip8 := if xval > yval then { s1 with registers := upd s1.registers 0xF 0 } else s1
  { s2 with registers := upd s2.registers regx (byteSub yval xval) }

/-- State for the C1 counterexample: `V0 = 100`, `VF = 200`. -/
def c1CexState : Chip8 :=
  { initState with registers := upd (upd initState.registers 0 100) 0xF 200 }

/-- C1 counterexample: for the add-registers instruction `0x8F04` (X = F,
Y = 0) with `VF = 200`, `V0 = 100`, the sum 300 carries, yet after execution
`VF = 44 = 300 mod 256`, not the carry flag `1`: the destination store
`VX = sum & 0xFF` is executed after the flag store and overwrites it when
X = F, refuting the claim that VF ends holding the carry flag. -/
theorem c1_addCarry_counterexample :
    c1CexState.registers 0xF + c1CexState.registers 0 > 255 ∧
    (Opcode8XY4 0x8F04 c1CexState).registers 0xF = 44 ∧
    (Opcode8XY4 0x8F04 c1CexState).registers 0xF ≠ 1 := by
  refine ⟨by decide, by decide, by decide⟩

/-- C1 (amended): for the add-registers instruction, the destination register
always ends holding `(a+b) mod 256`; when the destination index X differs
from F, the flag register VF ends at 1 iff `a+b > 255` and 0 otherwise.
(When X = F the arithmetic store overwrites the flag.) -/
theorem c1_addCarry (op x y a b : Nat) (s : Chip8)
    (hx : x = (op &&& 0xF00) >>> 8) (hy : y = (op &&& 0x0F0) >>> 4)
    (ha : a < 256) (hb : b < 256)
    (ha2 : a = s.registers x) (hb2 : b = s.registers y) :
    (Opcode8XY4 op s).registers x = (a + b) % 256 ∧
    (x ≠ 0xF → (Opcode8XY4 op s).registers 0xF = if a + b > 255 then 1 else 0) := by
  subst hx hy ha2 hb2
  constructor
  · simp [Opcode8XY4, upd_same, and255_eq_mod]
  · intro hxF
    have h1 : (0xF : Nat) ≠ (op &&& 0xF00) >>> 8 := Ne.symm hxF
    simp [Opcode8XY4, upd, h1]

/-- Witness for `c1_addCarry` at `op = 0x8124`, `V1 = 200`, `V2 = 100`. -/
def c1WitState : Chip8 :=
  { initState with registers := upd (upd initState.registers 1 200) 2 100 }

theorem c1_addCarry_witness :
    (200 : Nat) < 256 ∧
    (Opcode8XY4 0x8124 c1WitState).registers 1 = (200 + 100) % 256 ∧
    (1 ≠ 0xF → (Opcode8XY4 0x8124 c1WitState).registers 0xF =
      if 200 + 100 > 255 then 1 else 0) :=
  ⟨by decide,
   c1_addCarry 0x8124 1 2 200 100 c1WitState (by decide) (by decide)
     (by decide) (by decide) (by decide) (by decide)⟩

/-- State for the C2 counterexample: `V0 = 10`, `VF = 5`. -/
def c2CexState : Chip8 :=
  { initState with registers := upd (upd initState.registers 0 10) 0xF 5 }

/-- C2 counterexample: for the subtract instruction `0x80F5` (X = 0, Y = F)
with `V0 = 10` and `VF = 5`, the claim demands `V0 = (10 - 5) mod 256 = 5`;
the code first presets `VF = 1` and only then reads the operands, so it
computes `10 - 1 = 9` instead. -/
theorem c2_subBorrow_counterexample :
    c2CexState.registers 0 = 10 ∧ c2CexState.registers 0xF = 5 ∧
    (Opcode8XY5 0x80F5 c2CexState).registers 0 = 9 ∧
    (Opcode8XY5 0x80F5 c2CexState).registers 0 ≠ (256 + 10 - 5) % 256 := by
  refine ⟨by decide, by decide, by decide, by decide⟩

/-- C2 (amended): for subtract (8XY5) and reverse subtract (8XY7), whenever
neither operand index is F, the destination ends holding the 8-bit
wraparound difference of the pre-instruction operand values and VF ends at
0 iff the subtrahend was greater than the minuend, else 1.  (When X = F or
Y = F the handler's `VF = 1` preset corrupts the operand read.) -/
theorem c2_subBorrow (op x y a b : Nat) (s : Chip8)
    (hx : x = (op &&& 0xF00) >>> 8) (hy : y = (op &&& 0x0F0) >>> 4)
    (hxF : x ≠ 0xF) (hyF : y ≠ 0xF)
    (ha : a < 256) (hb : b < 256)
    (ha2 : a = s.registers x) (hb2 : b = s.registers y) :
    ((Opcode8XY5 op s).registers x = (256 + a - b) % 256 ∧
      (Opcode8XY5 op s).registers 0xF = if b > a then 0 else 1) ∧
    ((Opcode8XY7 op s).registers x = (256 + b - a) % 256 ∧
      (Opcode8XY7 op s).registers 0xF = if a > b then 0 else 1) := by
  subst hx hy ha2 hb2
  have h1 : (0xF : Nat) ≠ (op &&& 0xF00) >>> 8 := Ne.symm hxF
  have h2 : (op &&& 0xF00) >>> 8 ≠ (0xF : Nat) := hxF
  have h3 : (op &&& 0x0F0) >>> 4 ≠ (0xF : Nat) := hyF
  refine ⟨⟨?_, ?_⟩, ?_, ?_⟩
  · by_cases hba : s.registers ((op &&& 0x0F0) >>> 4) > s.registers ((op &&& 0xF00) >>> 8) <;>
      simp [Opcode8XY5, upd, h2, h3, hba, byteSub]
  · by_cases hba : s.registers ((op &&& 0x0F0) >>> 4) > s.registers ((op &&& 0xF00) >>> 8) <;>
      simp [Opcode8XY5, upd, h1, h2, h3, hba]
  · by_cases hab : s.registers ((op &&& 0xF00) >>> 8) > s.registers ((op &&& 0x0F0) >>> 4) <;>
      simp [Opcode8XY7, upd, h2, h3, hab, byteSub]
  · by_cases hab : s.registers ((op &&& 0xF00) >>> 8) > s.registers ((op &&& 0x0F0) >>> 4) <;>
      simp [Opcode8XY7, upd, h1, h2, h3, hab]

/-- Witness state for `c2_subBorrow`: `V1 = 7`, `V2 = 9`. -/
def c2WitState : Chip8 :=
  { initState with registers := upd (upd initState.registers 1 7) 2 9 }

theorem c2_subBorrow_witness :
    (1 : Nat) ≠ 0xF ∧ (2 : Nat) ≠ 0xF ∧
    (((Opcode8XY5 0x8125 c2WitState).registers 1 = (256 + 7 - 9) % 256 ∧
        (Opcode8XY5 0x8125 c2WitState).registers 0xF = if 9 > 7 then 0 else 1) ∧
      ((Opcode8XY7 0x8125 c2WitState).registers 1 = (256 + 9 - 7) % 256 ∧
        (Opcode8XY7 0x8125 c2WitState).registers 0xF = if 7 > 9 then 0 else 1)) :=
  ⟨by decide, by decide,
   c2_subBorrow 0x8125 1 2 7 9 c2WitState (by decide) (by decide) (by decide)
     (by decide) (by decide) (by decide) (by decide) (by decide)⟩

/-- Opcode 0NNN: `;` — deliberately empty in the source. -/
def Opcode0NNN (op : Nat) (s : Chip8) : Chip8 := s

/-- Opcode 00E0: `memset(m_ScreenData, 0, sizeof(m_ScreenData))`. -/
def Opcode00E0 (op : Nat) (s : Chip8) : Chip8 :=
  { s with screenData := fun _ _ => 0 }

/-- Opcode 00EE: `m_ProgramCounter = m_stack[m_stack.size()-1];
m_stack.pop_back();` — the source performs no emptiness check; on the empty
stack the vector access is out of bounds, modelled here as `none`. -/
def Opcode00EE (op : Nat) (s : Chip8) : Option Chip8 :=
  match s.stack with
  | [] => none
  | p :: rest => some { s with programCounter := p, stack := rest }

/-- Opcode 1NNN: `m_ProgramCounter = opcode & 0xFFF`. -/
def Opcode1NNN (op : Nat) (s : Chip8) : Chip8 :=
  { s with programCounter := op &&& 0xFFF }

/-- Opcode 2NNN: push the current program counter, jump to NNN. -/
def Opcode2NNN (op : Nat) (s : Chip8) : Chip8 :=
  { s with stack := s.programCounter :: s.stack, programCounter := op &&& 0xFFF }

/-- Opcode 3XNN: skip the next instruction if `VX == NN`. -/
def Opcode3XNN (op : Nat) (s : Chip8) : Chip8 :=
  let x := (op &&& 0xF00) >>> 8
  if s.registers x = op &&& 0x0FF then
    { s with programCounter := (s.programCounter + 2) % 65536 }
  else s

/-- Opcode 4XNN: skip the next instruction if `VX != NN`. -/
def Opcode4XNN (op : Nat) (s : Chip8) : Chip8 :=
  let xv := s.registers ((op &&& 0xF00) >>> 8)
  if xv ≠ op &&& 0x0FF then
    { s with programCounter := (s.programCounter + 2) % 65536 }
  else s

/-- Opcode 5XY0: skip the next instruction if `VX == VY`. -/
def Opcode5XY0 (op : Nat) (s : Chip8) : Chip8 :=
  if s.registers ((op &&& 0xF00) >>> 8) = s.registers ((op &&& 0x0F0) >>> 4) then
    { s with programCounter := (s.programCounter + 2) % 65536 }
  else s

/-- Opcode 6XNN: `m_Registers[regx] = nn`. -/
def Opcode6XNN (op : Nat) (s : Chip8) : Chip8 :=
  { s with registers := upd s.registers ((op &&& 0xF00) >>> 8) (op &&& 0x0FF) }

/-- Opcode 7XNN: `m_Registers[regx] += nn` with the implicit BYTE store
truncating modulo 256. -/
def Opcode7XNN (op : Nat) (s : Chip8) : Chip8 :=
  let x := (op &&& 0xF00) >>> 8
  { s with registers := upd s.registers x ((s.registers x + (op &&& 0x0FF)) % 256) }

/-- Opcode 8XY0: `VX = VY`. -/
def Opcode8XY0 (op : Nat) (s : Chip8) : Chip8 :=
  { s with
    registers := upd s.registers ((op &&& 0xF00) >>> 8) (s.registers ((op &&& 0x0F0) >>> 4)) }

/-- Opcode 8XY1: `VX |= VY`. -/
def Opcode8XY1 (op : Nat) (s : Chip8) : Chip8 :=
  let x := (op &&& 0xF00) >>> 8
  { s with registers := upd s.registers x (s.registers x ||| s.registers ((op &&& 0x0F0) >>> 4)) }

/-- Opcode 8XY2: `VX &= VY`. -/
def Opcode8XY2 (op : Nat) (s : Chip8) : Chip8 :=
  let x := (op &&& 0xF00) >>> 8
  { s with registers := upd s.registers x (s.registers x &&& s.registers ((op &&& 0x0F0) >>> 4)) }

/-- Opcode 8XY3: `VX ^= VY`. -/
def Opcode8XY3 (op : Nat) (s : Chip8) : Chip8 :=
  let x := (op &&& 0xF00) >>> 8
  { s with registers := upd s.registers x (s.registers x ^^^ s.registers ((op &&& 0x0F0) >>> 4)) }

/-- Opcode 8XY6: `VF = VX & 1; VX >>= 1`, in source order (the shift reads
the register array again after the flag store). -/
def Opcode8XY6 (op : Nat) (s : Chip8) : Chip8 :=
  let x := (op &&& 0xF00) >>> 8
  let s1 : Chip8 := { s with registers := upd s.registers 0xF (s.registers x &&& 1) }
  { s1 with registers := upd s1.registers x (s1.registers x >>> 1) }

/-- Opcode 8XYE: `VF = VX >> 7; VX <<= 1`, in source order, the left shift
truncating modulo 256 on the BYTE store. -/
def Opcode8XYE (op : Nat) (s : Chip8) : Chip8 :=
  let x := (op &&& 0xF00) >>> 8
  let s1 : Chip8 := { s with registers := upd s.registers 0xF (s.registers x >>> 7) }
  { s1 with registers := upd s1.registers x ((s1.registers x <<< 1) % 256) }

/-- Opcode 9XY0: skip the next instruction if `VX != VY`. -/
def Opcode9XY0 (op : Nat) (s : Chip8) : Chip8 :=
  if s.registers ((op &&& 0xF00) >>> 8) ≠ s.registers ((op &&& 0x0F0) >>> 4) then
    { s with programCounter := (s.programCounter + 2) % 65536 }
  else s

/-- Opcode ANNN: `m_AddressI = opcode & 0xFFF`. -/
def OpcodeANNN (op : Nat) (s : Chip8) : Chip8 :=
  { s with addressI := op &&& 0xFFF }

/-- Opcode BNNN: `m_ProgramCounter = m_Registers[0] + (opcode & 0xFFF)`. -/
def OpcodeBNNN (op : Nat) (s : Chip8) : Chip8 :=
  { s with programCounter := (s.registers 0 + (op &&& 0xFFF)) % 65536 }

/-- Opcode CXNN: `m_Registers[x] = rand() & (opcode & 0x0FF)`; the
pseudo-random value is passed in as `rnd`. -/
def OpcodeCXNN (op rnd : Nat) (s : Chip8) : Chip8 :=
  { s with registers := upd s.registers ((op &&& 0xF00) >>> 8) (rnd &&& (op &&& 0x0FF)) }

/-- Opcode EX9E: skip the next instruction if the key indexed by `VX` is
pressed (`m_KeysPressed[m_Registers[regx]] == 1`). -/
def OpcodeEX9E (op : Nat) (s : Chip8) : Chip8 :=
  if s.keysPressed (s.registers ((op &&& 0xF00) >>> 8)) then
    { s with programCounter := (s.programCounter + 2) % 65536 }
  else s

/-- Opcode EXA1: skip the next instruction if the key indexed by `VX` is not
pressed. -/
def OpcodeEXA1 (op : Nat) (s : Chip8) : Chip8 :=
  if s.keysPressed (s.registers ((op &&& 0xF00) >>> 8)) then s
  else { s with programCounter := (s.programCounter + 2) % 65536 }

/-- Opcode FX07: `m_Registers[regx] = m_DelayTimer`. -/
def OpcodeFX07 (op : Nat) (s : Chip8) : Chip8 :=
  { s with registers := upd s.registers ((op &&& 0xF00) >>> 8) s.delayTimer }

/-- The `m_keyMappings` table: key characters by logical key index. -/
def keyMappings : Nat → Nat := fun i =>
  [120, 49, 50, 51, 113, 119, 101, 97, 115, 100, 122, 99, 52, 114, 102, 118].getD i 0

/-- Opcode FX0A: scan all 16 keys; every pressed key overwrites
`m_Registers[regx]` with its `m_keyMappings` character (the last pressed
index wins) and marks a key as pressed; if none was pressed the program
counter steps back by 2 to retry the instruction. -/
def OpcodeFX0A (op : Nat) (s : Chip8) : Chip8 :=
  let regx := (op &&& 0xF00) >>> 8
  let p := (List.range 16).foldl
    (fun (acc : Chip8 × Bool) i =>
      if s.keysPressed i then
        ({ acc.1 with registers := upd acc.1.registers regx (keyMappings i) }, true)
      else acc)
    (s, false)
  if p.2 then p.1
  else { p.1 with programCounter := (p.1.programCounter + 65534) % 65536 }

/-- Opcode FX15: `m_DelayTimer = m_Registers[x]`. -/
def OpcodeFX15 (op : Nat) (s : Chip8) : Chip8 :=
  { s with delayTimer := s.registers ((op &&& 0xF00) >>> 8) }

/-- Opcode FX18: `m_SoundTimer = m_Registers[x]`. -/
def OpcodeFX18 (op : Nat) (s : Chip8) : Chip8 :=
  { s with soundTimer := s.registers ((op &&& 0xF00) >>> 8) }

/-- Opcode FX1E: `m_AddressI += m_Registers[regx]`, the WORD store
truncating modulo 65536. -/
def OpcodeFX1E (op : Nat) (s : Chip8) : Chip8 :=
  { s with addressI := (s.addressI + s.registers ((op &&& 0xF00) >>> 8)) % 65536 }

/-- Opcode FX29 exactly as written in the source:
`m_AddressI = m_GameMemory[m_Registers[regx]]` — the index register receives
the memory byte stored at address `VX`, not the address `5 * VX` of the
glyph for digit `VX`. -/
def OpcodeFX29 (op : Nat) (s : Chip8) : Chip8 :=
  { s with addressI := s.gameMemory (s.registers ((op &&& 0xF00) >>> 8)) }

/-- Opcode FX33: store the BCD digits of `VX` at `I`, `I+1`, `I+2`. -/
def OpcodeFX33 (op : Nat) (s : Chip8) : Chip8 :=
  let value := s.registers ((op &&& 0xF00) >>> 8)
  let m1 := upd s.gameMemory s.addressI (value / 100)
  let m2 := upd m1 (s.addressI + 1) ((value / 10) % 10)
  { s with gameMemory := upd m2 (s.addressI + 2) (value % 10) }

/-- Opcode FX55: dump `V0..VX` into memory at `tmp_addressI = m_AddressI`,
incrementing only the temporary; the commented-out write-back of
`m_AddressI` is absent, so the index register is left untouched. -/
def OpcodeFX55 (op : Nat) (s : Chip8) : Chip8 :=
  let regx := (op &&& 0xF00) >>> 8
  let base := s.addressI
  (List.range (regx + 1)).foldl
    (fun t i => { t with gameMemory := upd t.gameMemory (base + i) (t.registers i) }) s

/-- Opcode FX65: load `V0..VX` from memory at `tmp_addressI = m_AddressI`,
incrementing only the temporary; `m_AddressI` is left untouched. -/
def OpcodeFX65 (op : Nat) (s : Chip8) : Chip8 :=
  let regx := (op &&& 0xF00) >>> 8
  let base := s.addressI
  (List.range (regx + 1)).foldl
    (fun t i => { t with registers := upd t.registers i (t.gameMemory (base + i)) }) s

/-- The 80-byte `fontset` table copied into memory by `CPUReset`. -/
def fontset : List Nat :=
  [0xF0, 0x90, 0x90, 0x90, 0xF0,
   0x20, 0x60, 0x20, 0x20, 0x70,
   0xF0, 0x10, 0xF0, 0x80, 0xF0,
   0xF0, 0x10, 0xF0, 0x10, 0xF0,
   0x90, 0x90, 0xF0, 0x10, 0x10,
   0xF0, 0x80, 0xF0, 0x10, 0xF0,
   0xF0, 0x80, 0xF0, 0x90, 0xF0,
   0xF0, 0x10, 0x20, 0x40, 0x40,
   0xF0, 0x90, 0xF0, 0x90, 0xF0,
   0xF0, 0x90, 0xF0, 0x10, 0xF0,
   0xF0, 0x90, 0xF0, 0x90, 0x90,
   0xE0, 0x90, 0xE0, 0x90, 0xE0,
   0xF0, 0x80, 0x80, 0x80, 0xF0,
   0xE0, 0x90, 0x90, 0x90, 0xE0,
   0xF0, 0x80, 0xF0, 0x80, 0xF0,
   0xF0, 0x80, 0xF0, 0x80, 0x80]

/-- The font-copy loop of `CPUReset`: `for (i = 0; i < 80; i++)
m_GameMemory[i] = fontset[i];` applied to a prior memory map (the game
bytes loaded at 0x200 and above are left to the prior map). -/
def CPUResetMemory (mem : Nat → Nat) : Nat → Nat :=
  fun i => if i < 80 then fontset.getD i 0 else mem i

/-- Test of sprite byte `data` at pixel column `xp` (most-significant bit
first), as in the source: `mask = 1 << xpixelinv; data & mask`. -/
def spriteBit (data xp : Nat) : Bool :=
  data &&& (1 <<< (7 - xp)) != 0

/-- One inner-loop iteration of `OpcodeDXYN` for pixel column `xp` of sprite
row `yl`: when the sprite bit is set, wrap the coordinates (`x %= HEIGHT`
with `HEIGHT = 64`, `y %= WIDTH` with `WIDTH = 32`), record a collision in
VF if the screen pixel is already 1, then toggle the pixel with XOR. -/
def drawPixel (cx cy yl data xp : Nat) (s : Chip8) : Chip8 :=
  if spriteBit data xp then
    let x := (cx + xp) % 64
    let y := (cy + yl) % 32
    let s1 : Chip8 :=
      if s.screenData x y = 1 then { s with registers := upd s.registers 0xF 1 } else s
    { s1 with screenData := upd2 s1.screenData x y (s1.screenData x y ^^^ 1) }
  else s

/-- The inner `xpixel` loop of `OpcodeDXYN` over columns 0..7. -/
def drawRow (cx cy yl data : Nat) (s : Chip8) : Chip8 :=
  (List.range 8).foldl (fun t xp => drawPixel cx cy yl data xp t) s

/-- Opcode DXYN: read origin `(VX, VY)` and height N, clear VF, then for
each sprite row read `m_GameMemory[m_AddressI + yline]` and draw its 8
pixels. -/
def OpcodeDXYN (op : Nat) (s : Chip8) : Chip8 :=
  let regx := (op &&& 0xF00) >>> 8
  let regy := (op &&& 0x0F0) >>> 4
  let height := op &&& 0x00F
  let cx := s.registers regx
  let cy := s.registers regy
  let s0 : Chip8 := { s with registers := upd s.registers 0xF 0 }
  (List.range height).foldl
    (fun t yl => drawRow cx cy yl (t.gameMemory (t.addressI + yl)) t) s0

/-- Group-0 dispatch of `RunEmulator`: low nibble 0 selects 00E0, otherwise
a zero X nibble selects 00EE, otherwise 0NNN. -/
def execGroup0 (op : Nat) (s : Chip8) : Option Chip8 :=
  if op &&& 0x00F = 0 then some (Opcode00E0 op s)
  else if op &&& 0xF00 = 0 then Opcode00EE op s
  else some (Opcode0NNN op s)

/-- Group-8 dispatch of `RunEmulator`: a switch on the low nibble with
cases 0-7 and 14 and no default, so any other low nibble falls through
unchanged. -/
def execGroup8 (op : Nat) (s : Chip8) : Chip8 :=
  if op &&& 0x00F = 0 then Opcode8XY0 op s
  else if op &&& 0x00F = 1 then Opcode8XY1 op s
  else if op &&& 0x00F = 2 then Opcode8XY2 op s
  else if op &&& 0x00F = 3 then Opcode8XY3 op s
  else if op &&& 0x00F = 4 then Opcode8XY4 op s
  else if op &&& 0x00F = 5 then Opcode8XY5 op s
  else if op &&& 0x00F = 6 then Opcode8XY6 op s
  else if op &&& 0x00F = 7 then Opcode8XY7 op s
  else if op &&& 0x00F = 14 then Opcode8XYE op s
  else s

/-- Group-E dispatch of `RunEmulator`: low nibble 1 selects EXA1, every
other low nibble selects EX9E. -/
def execGroupE (op : Nat) (s : Chip8) : Chip8 :=
  if op &&& 0x00F = 1 then OpcodeEXA1 op s else OpcodeEX9E op s

/-- Group-F dispatch of `RunEmulator`: a switch on the low byte with the
nine listed cases and no default. -/
def execGroupF (op rnd : Nat) (s : Chip8) : Chip8 :=
  if op &&& 0x0FF = 0x07 then OpcodeFX07 op s
  else if op &&& 0x0FF = 0x0A then OpcodeFX0A op s
  else if op &&& 0x0FF = 0x15 then OpcodeFX15 op s
  else if op &&& 0x0FF = 0x18 then OpcodeFX18 op s
  else if op &&& 0x0FF = 0x1E then OpcodeFX1E op s
  else if op &&& 0x0FF = 0x29 then OpcodeFX29 op s
  else if op &&& 0x0FF = 0x33 then OpcodeFX33 op s
  else if op &&& 0x0FF = 0x55 then OpcodeFX55 op s
  else if op &&& 0x0FF = 0x65 then OpcodeFX65 op s
  else s

/-- The decode-execute step of `RunEmulator`'s loop body: the outer switch
on the most-significant nibble, applied after `GetNextOpcode` has already
advanced the program counter.  `rnd` stands for the `rand()` value consumed
by CXNN.  The only `none` outcome is 00EE on an empty stack, where the C++
performs an out-of-bounds vector access. -/
def execOpcode (op rnd : Nat) (s : Chip8) : Option Chip8 :=
  if (op &&& 0xF000) >>> 12 = 0 then execGroup0 op s
  else if (op &&& 0xF000) >>> 12 = 1 then some (Opcode1NNN op s)
  else if (op &&& 0xF000) >>> 12 = 2 then some (Opcode2NNN op s)
  else if (op &&& 0xF000) >>> 12 = 3 then some (Opcode3XNN op s)
  else if (op &&& 0xF000) >>> 12 = 4 then some (Opcode4XNN op s)
  else if (op &&& 0xF000) >>> 12 = 5 then some (Opcode5XY0 op s)
  else if (op &&& 0xF000) >>> 12 = 6 then some (Opcode6XNN op s)
  else if (op &&& 0xF000) >>> 12 = 7 then some (Opcode7XNN op s)
  else if (op &&& 0xF000) >>> 12 = 8 then some (execGroup8 op s)
  else if (op &&& 0xF000) >>> 12 = 9 then some (Opcode9XY0 op s)
  else if (op &&& 0xF000) >>> 12 = 0xA then some (OpcodeANNN op s)
  else if (op &&& 0xF000) >>> 12 = 0xB then some (OpcodeBNNN op s)
  else if (op &&& 0xF000) >>> 12 = 0xC then some (OpcodeCXNN op rnd s)
  else if (op &&& 0xF000) >>> 12 = 0xD then some (OpcodeDXYN op s)
  else if (op &&& 0xF000) >>> 12 = 0xE then some (execGroupE op s)
  else if (op &&& 0xF000) >>> 12 = 0xF then some (execGroupF op rnd s)
  else some s

/-- One iteration of the `decreseTimer` thread loop, acting on the pair
(delay timer, sound timer): `if (m_DelayTimer > 0) m_DelayTimer--;` — the
sound timer is not touched by the loop body. -/
def decreseTimerTick (t : Nat × Nat) : Nat × Nat :=
  (if t.1 > 0 then t.1 - 1 else t.1, t.2)

/-- C4 counterexample: with delay timer 5 and sound timer 3, one 60 Hz tick
leaves the sound timer at 3, although the claim demands that the tick
decrement the (nonzero) sound timer to 2: the loop body of `decreseTimer`
only ever decrements the delay timer. -/
theorem c4_timerTick_counterexample :
    (decreseTimerTick (5, 3)).2 = 3 ∧ (decreseTimerTick (5, 3)).2 ≠ 2 := by
  refine ⟨by decide, by decide⟩

/-- C4 (amended): each tick decrements the delay timer by exactly one when
it is nonzero and leaves it at 0 when it is zero (never below 0), leaves the
sound timer unchanged, and setting the delay timer to 5 and applying at
least 6 ticks leaves it at exactly 0. -/
theorem c4_timerTick (d sd n : Nat) (hn : 6 ≤ n) :
    (decreseTimerTick (d, sd)).1 = d - 1 ∧
    (decreseTimerTick (d, sd)).2 = sd ∧
    (decreseTimerTick^[n] (5, sd)).1 = 0 ∧
    (decreseTimerTick^[n] (5, sd)).2 = sd := by
  have h5 : decreseTimerTick^[5] (5, sd) = (0, sd) := rfl
  have hfix : decreseTimerTick (0, sd) = (0, sd) := rfl
  have hsplit : decreseTimerTick^[n] (5, sd) = (0, sd) := by
    have hrw : n - 5 + 5 = n := by omega
    calc decreseTimerTick^[n] (5, sd)
        = decreseTimerTick^[n - 5 + 5] (5, sd) := by rw [hrw]
      _ = decreseTimerTick^[n - 5] (decreseTimerTick^[5] (5, sd)) :=
          Function.iterate_add_apply _ _ _ _
      _ = decreseTimerTick^[n - 5] (0, sd) := by rw [h5]
      _ = (0, sd) := Function.iterate_fixed hfix _
  refine ⟨?_, rfl, by rw [hsplit], by rw [hsplit]⟩
  rcases d with _ | d <;> simp [decreseTimerTick]

theorem c4_timerTick_witness :
    6 ≤ 6 ∧
    ((decreseTimerTick (9, 3)).1 = 9 - 1 ∧
      (decreseTimerTick (9, 3)).2 = 3 ∧
      (decreseTimerTick^[6] (5, 3)).1 = 0 ∧
      (decreseTimerTick^[6] (5, 3)).2 = 3) :=
  ⟨by decide, c4_timerTick 9 3 6 (by decide)⟩

/-- A fold whose step preserves the index register preserves it overall. -/
theorem foldl_addressI {f : Chip8 → Nat → Chip8}
    (hf : ∀ t i, (f t i).addressI = t.addressI) :
    ∀ (l : List Nat) (t : Chip8), (l.foldl f t).addressI = t.addressI := by
  intro l
  induction l with
  | nil => intro t; rfl
  | cons hd tl ih => intro t; rw [List.foldl_cons, ih, hf]

/-- C10: the register-dump (FX55) and register-load (FX65) instructions
leave the index register `m_AddressI` unchanged, for every opcode and every
prior machine state. -/
theorem c10_dumpLoad_addressI (op : Nat) (s : Chip8) :
    (OpcodeFX55 op s).addressI = s.addressI ∧
    (OpcodeFX65 op s).addressI = s.addressI := by
  constructor
  · simp only [OpcodeFX55]
    apply foldl_addressI
    intro t i
    rfl
  · simp only [OpcodeFX65]
    apply foldl_addressI
    intro t i
    rfl

/-- State for the C5 evidence: memory after `CPUReset`'s font copy (over a
zeroed map) and `V0 = 0x0A`. -/
def c5State : Chip8 :=
  { initState with
    gameMemory := CPUResetMemory initState.gameMemory
    registers := upd initState.registers 0 0x0A }

/-- C5 evidence: with the font loaded and `V0 = 0x0A`, the glyph for
hexadecimal A does live at address `5 * 0xA = 50` with the claimed bit
pattern, but `OpcodeFX29` sets the index register to
`m_GameMemory[V0] = fontset[10] = 0xF0 = 240`, not to the glyph address 50:
the code loads a font data byte where its own comment promises the sprite
location. -/
theorem c5_fontAddress_bug :
    (OpcodeFX29 0xF029 c5State).addressI = 240 ∧
    (OpcodeFX29 0xF029 c5State).addressI ≠ 5 * 0xA ∧
    c5State.gameMemory (5 * 0xA) = 0xF0 ∧
    c5State.gameMemory 51 = 0x90 ∧
    c5State.gameMemory 52 = 0xF0 ∧
    c5State.gameMemory 53 = 0x90 ∧
    c5State.gameMemory 54 = 0x90 := by
  refine ⟨by decide, by decide, by decide, by decide, by decide, by decide, by decide⟩

/-- C7 evidence: executing the return opcode 0x00EE on the reset state,
whose call stack is empty, reaches the out-of-bounds vector access
`m_stack[m_stack.size()-1]`: the decode-execute step has no defined
successor state (the source contains no emptiness check and no
StackUnderflow signal). -/
theorem c7_returnEmptyStack_bug :
    initState.stack = [] ∧ execOpcode 0x00EE 0 initState = none := by
  refine ⟨rfl, rfl⟩

/-- C8 evidence: `m_GameMemory` is declared with `0xfff = 4095` bytes, so
the claimed valid address 0xFFF is outside the array, and the embedded FX33
at `I = 0xFFE` (reachable via ANNN) writes its units digit at address
0x1000 with no AddressOutOfRange check — the model, like the C++, has no
bounds check on any memory access. -/
theorem c8_memoryBounds_bug :
    memSize = 4095 ∧ ¬ (0xFFF < memSize) ∧ memSize ≠ 4096 ∧
    (OpcodeANNN 0xAFFE initState).addressI = 0xFFE ∧
    (OpcodeFX33 0xF033 { (OpcodeANNN 0xAFFE initState) with
        registers := upd initState.registers 0 156 }).gameMemory 0x1000 = 6 ∧
    ¬ (0x1000 - 1 < memSize) := by
  refine ⟨by decide, by decide, by decide, by decide, by decide, by decide⟩

/-- C9 evidence: `CPUReset` copies the program at offset `0x200` into the
4095-byte array and asks `fread` for `0xfff` bytes unconditionally, so the
claimed-successful image of `4096 - 512 = 3584` bytes already writes its
last byte at index `0x200 + 3584 - 1 = 4095`, outside the array, and the
`fread` request itself extends `0x200 + 0xfff - 1 = 0x11fe` bytes deep; no
size or readability check exists, so no LoadError can ever be raised. -/
theorem c9_loadUnchecked_bug :
    loadOffset + 3584 = 4096 ∧
    ¬ (loadOffset + 3584 - 1 < memSize) ∧
    loadOffset + freadCount > memSize := by
  refine ⟨by decide, by decide, by decide⟩

/-- State for the C6 counterexample: one lit pixel at (5, 3). -/
def c6CexState : Chip8 :=
  { initState with screenData := upd2 initState.screenData 5 3 1 }

/-- C6 counterexample: opcode 0x0120 has a recognized primary group (0x0)
and is not one of the 35 defined operations (it is an 0NNN pattern, not
00E0/00EE), yet the decode-execute step is not a no-op: the group-0
dispatch tests only the low nibble, so 0x0120 runs the clear-screen handler
and erases the lit pixel at (5, 3). -/
theorem c6_unlistedNoop_counterexample :
    c6CexState.screenData 5 3 = 1 ∧
    (execOpcode 0x0120 0 c6CexState).map (fun t => t.screenData 5 3) = some 0 := by
  refine ⟨by decide, by decide⟩

/-- C6 (amended): within groups 0x8 and 0xF an unlisted sub-opcode falls
through the switch with no default and the decode-execute step leaves the
whole machine state unchanged; groups 0x0 and 0xE do not enjoy this:
group 0x0 dispatches any low-nibble-0 pattern to clear-screen and any other
zero-X pattern to return, and group 0xE dispatches every sub-opcode to one
of the two key-skip handlers. -/
theorem c6_unlistedNoop (op rnd : Nat) (s : Chip8) :
    ((op &&& 0xF000) >>> 12 = 8 →
      (op &&& 0x00F) ∉ ([0, 1, 2, 3, 4, 5, 6, 7, 14] : List Nat) →
      execOpcode op rnd s = some s) ∧
    ((op &&& 0xF000) >>> 12 = 0xF →
      (op &&& 0x0FF) ∉ ([0x07, 0x0A, 0x15, 0x18, 0x1E, 0x29, 0x33, 0x55, 0x65] : List Nat) →
      execOpcode op rnd s = some s) := by
  constructor
  · intro h8 hmem
    simp only [List.mem_cons, List.not_mem_nil, or_false, not_or] at hmem
    obtain ⟨e0, e1, e2, e3, e4, e5, e6, e7, e14⟩ := hmem
    simp [execOpcode, execGroup8, h8, e0, e1, e2, e3, e4, e5, e6, e7, e14]
  · intro hF hmem
    simp only [List.mem_cons, List.not_mem_nil, or_false, not_or] at hmem
    obtain ⟨e07, e0A, e15, e18, e1E, e29, e33, e55, e65⟩ := hmem
    simp [execOpcode, execGroupF, hF, e07, e0A, e15, e18, e1E, e29, e33, e55, e65]

theorem c6_unlistedNoop_witness :
    ((0x8F89 &&& 0xF000) >>> 12 = 8 ∧
      execOpcode 0x8F89 0 initState = some initState) ∧
    ((0xF0FF &&& 0xF000) >>> 12 = 0xF ∧
      execOpcode 0xF0FF 0 initState = some initState) :=
  ⟨⟨by decide, (c6_unlistedNoop 0x8F89 0 initState).1 (by decide) (by decide)⟩,
   ⟨by decide, (c6_unlistedNoop 0xF0FF 0 initState).2 (by decide) (by decide)⟩⟩

/-- Congruence for `List.any` under pointwise equal predicates. -/
theorem anyCongr {α : Type} {f g : α → Bool} :
    ∀ {l : List α}, (∀ a ∈ l, f a = g a) → l.any f = l.any g := by
  intro l
  induction l with
  | nil => intro _; rfl
  | cons hd tl ih =>
      intro h
      simp only [List.any_cons]
      rw [h hd (List.mem_cons_self hd tl), ih fun a ha => h a (List.mem_cons_of_mem hd ha)]

/-- Two offsets below the modulus that land on the same wrapped coordinate
are equal. -/
theorem add_mod_inj {n c a b : Nat} (ha : a < n) (hb : b < n)
    (h : (c + a) % n = (c + b) % n) : a = b := by
  rcases Nat.le_total a b with hab | hab
  · have hd : n ∣ (c + b) - (c + a) := (Nat.modEq_iff_dvd' (by omega)).mp h
    have he : (c + b) - (c + a) = b - a := by omega
    rw [he] at hd
    have := Nat.eq_zero_of_dvd_of_lt hd
    omega
  · have hd : n ∣ (c + a) - (c + b) := (Nat.modEq_iff_dvd' (by omega)).mp h.symm
    have he : (c + a) - (c + b) = a - b := by omega
    rw [he] at hd
    have := Nat.eq_zero_of_dvd_of_lt hd
    omega

/-- Whether any pixel column of `l` in sprite row `yl` of byte `data` lands
on screen cell `(x, y)` after wrapping. -/
def rowHitL (data cx cy yl x y : Nat) (l : List Nat) : Bool :=
  l.any fun xp =>
    spriteBit data xp && decide (x = (cx + xp) % 64) && decide (y = (cy + yl) % 32)

/-- `rowHitL` over the full 8 pixel columns. -/
def rowHit (data cx cy yl x y : Nat) : Bool :=
  rowHitL data cx cy yl x y (List.range 8)

/-- Whether any pixel column of `l` in sprite row `yl` of byte `data` lands
on a screen cell that currently holds 1 (a collision). -/
def rowCollideL (data cx cy yl : Nat) (scr : Nat → Nat → Nat) (l : List Nat) : Bool :=
  l.any fun xp =>
    spriteBit data xp && decide (scr ((cx + xp) % 64) ((cy + yl) % 32) = 1)

/-- `rowCollideL` over the full 8 pixel columns. -/
def rowCollide (data cx cy yl : Nat) (scr : Nat → Nat → Nat) : Bool :=
  rowCollideL data cx cy yl scr (List.range 8)

/-- Whether any sprite row of `L` hits screen cell `(x, y)`. -/
def drawHitL (mem : Nat → Nat) (adI cx cy x y : Nat) (L : List Nat) : Bool :=
  L.any fun yl => rowHit (mem (adI + yl)) cx cy yl x y

/-- Whether the N-row sprite at `(cx, cy)` hits screen cell `(x, y)`:
the claim's set of toggled cells. -/
def drawHit (mem : Nat → Nat) (adI cx cy h x y : Nat) : Bool :=
  drawHitL mem adI cx cy x y (List.range h)

/-- Whether any sprite row of `L` collides with a lit screen cell. -/
def drawCollideL (mem : Nat → Nat) (adI cx cy : Nat) (scr : Nat → Nat → Nat)
    (L : List Nat) : Bool :=
  L.any fun yl => rowCollide (mem (adI + yl)) cx cy yl scr

/-- Whether the N-row sprite at `(cx, cy)` toggles some pixel from 1 to 0:
the claim's collision condition. -/
def drawCollide (mem : Nat → Nat) (adI cx cy h : Nat) (scr : Nat → Nat → Nat) : Bool :=
  drawCollideL mem adI cx cy scr (List.range h)

theorem drawPixel_gameMemory (cx cy yl data xp : Nat) (t : Chip8) :
    (drawPixel cx cy yl data xp t).gameMemory = t.gameMemory := by
  simp only [drawPixel]
  split_ifs <;> rfl

theorem drawPixel_addressI (cx cy yl data xp : Nat) (t : Chip8) :
    (drawPixel cx cy yl data xp t).addressI = t.addressI := by
  simp only [drawPixel]
  split_ifs <;> rfl

theorem drawPixel_screenData (cx cy yl data xp : Nat) (t : Chip8) (a b : Nat) :
    (drawPixel cx cy yl data xp t).screenData a b =
      if spriteBit data xp && decide (a = (cx + xp) % 64) && decide (b = (cy + yl) % 32)
      then t.screenData a b ^^^ 1 else t.screenData a b := by
  cases hsb : spriteBit data xp
  · simp [drawPixel, hsb]
  · have hscr :
        (if t.screenData ((cx + xp) % 64) ((cy + yl) % 32) = 1 then
            { t with registers := upd t.registers 0xF 1 } else t).screenData =
          t.screenData := by
      split_ifs <;> rfl
    simp only [drawPixel, hsb, if_true, Bool.true_and]
    rw [hscr]
    by_cases hax : a = (cx + xp) % 64
    · by_cases hby : b = (cy + yl) % 32
      · subst hax hby
        simp [upd2_same]
      · rw [upd2_ne _ _ (Or.inr hby)]
        simp [hby]
    · rw [upd2_ne _ _ (Or.inl hax)]
      simp [hax]

theorem drawPixel_registersF (cx cy yl data xp : Nat) (t : Chip8) :
    (drawPixel cx cy yl data xp t).registers 0xF =
      if spriteBit data xp && decide (t.screenData ((cx + xp) % 64) ((cy + yl) % 32) = 1)
      then 1 else t.registers 0xF := by
  cases hsb : spriteBit data xp
  · simp [drawPixel, hsb]
  · by_cases hcol : t.screenData ((cx + xp) % 64) ((cy + yl) % 32) = 1
    · simp [drawPixel, hsb, hcol, upd_same]
    · simp [drawPixel, hsb, hcol]

/-- A row hit forces the wrapped y-coordinate of that row. -/
theorem rowHitL_eq_y {data cx cy yl x y : Nat} {l : List Nat}
    (h : rowHitL data cx cy yl x y l = true) : y = (cy + yl) % 32 := by
  obtain ⟨xp, _, hx⟩ := List.any_eq_true.mp h
  simp only [Bool.and_eq_true, decide_eq_true_eq] at hx
  exact hx.2

/-- A cell outside a row's wrapped y-coordinate is never hit by that row. -/
theorem rowHitL_false_of_y {data cx cy yl x y : Nat} {l : List Nat}
    (h : y ≠ (cy + yl) % 32) : rowHitL data cx cy yl x y l = false := by
  cases hr : rowHitL data cx cy yl x y l
  · rfl
  · exact absurd (rowHitL_eq_y hr) h

/-- `rowHit` version of `rowHitL_false_of_y`. -/
theorem rowHit_false_of_y {data cx cy yl x y : Nat}
    (h : y ≠ (cy + yl) % 32) : rowHit data cx cy yl x y = false :=
  rowHitL_false_of_y h

/-- The inner pixel fold of `OpcodeDXYN` over an arbitrary list of columns. -/
def drawRowL (cx cy yl data : Nat) (l : List Nat) (s : Chip8) : Chip8 :=
  l.foldl (fun t xp => drawPixel cx cy yl data xp t) s

theorem drawRow_eq_drawRowL (cx cy yl data : Nat) (s : Chip8) :
    drawRow cx cy yl data s = drawRowL cx cy yl data (List.range 8) s := rfl

/-- Effect of one sprite row drawn over a duplicate-free list of columns
below 8: memory and the index register are untouched, each hit cell is
toggled by XOR, and VF becomes 1 exactly on the row's collisions (measured
against the screen as it was when the row started). -/
theorem drawRowL_spec (cx cy yl data : Nat) :
    ∀ (l : List Nat), l.Nodup → (∀ xp ∈ l, xp < 8) → ∀ (t : Chip8),
      (drawRowL cx cy yl data l t).gameMemory = t.gameMemory ∧
      (drawRowL cx cy yl data l t).addressI = t.addressI ∧
      (∀ a b, (drawRowL cx cy yl data l t).screenData a b =
        if rowHitL data cx cy yl a b l then t.screenData a b ^^^ 1
        else t.screenData a b) ∧
      ((drawRowL cx cy yl data l t).registers 0xF =
        if rowCollideL data cx cy yl t.screenData l then 1 else t.registers 0xF) := by
  intro l
  induction l with
  | nil =>
      intro _ _ t
      exact ⟨rfl, rfl, fun a b => by simp [drawRowL, rowHitL],
        by simp [drawRowL, rowCollideL]⟩
  | cons xp l ih =>
      intro hnd hlt t
      have hxp8 : xp < 8 := hlt xp (List.mem_cons_self xp l)
      have hxpl : xp ∉ l := (List.nodup_cons.mp hnd).1
      have hnd2 : l.Nodup := (List.nodup_cons.mp hnd).2
      have hlt2 : ∀ z ∈ l, z < 8 := fun z hz => hlt z (List.mem_cons_of_mem xp hz)
      have hstep : drawRowL cx cy yl data (xp :: l) t =
          drawRowL cx cy yl data l (drawPixel cx cy yl data xp t) := rfl
      obtain ⟨ihm, ihA, ihscr, ihvf⟩ := ih hnd2 hlt2 (drawPixel cx cy yl data xp t)
      refine ⟨?_, ?_, ?_, ?_⟩
      · rw [hstep, ihm, drawPixel_gameMemory]
      · rw [hstep, ihA, drawPixel_addressI]
      · intro a b
        rw [hstep, ihscr a b, drawPixel_screenData]
        have hcons : rowHitL data cx cy yl a b (xp :: l) =
            ((spriteBit data xp && decide (a = (cx + xp) % 64) &&
                decide (b = (cy + yl) % 32)) || rowHitL data cx cy yl a b l) := by
          simp [rowHitL]
        cases hP : (spriteBit data xp && decide (a = (cx + xp) % 64) &&
            decide (b = (cy + yl) % 32)) with
        | false => simp [hcons, hP]
        | true =>
            have hL : rowHitL data cx cy yl a b l = false := by
              cases hLc : rowHitL data cx cy yl a b l with
              | false => rfl
              | true =>
                  exfalso
                  simp only [Bool.and_eq_true, decide_eq_true_eq] at hP
                  obtain ⟨xq, hxqmem, hq⟩ := List.any_eq_true.mp hLc
                  simp only [Bool.and_eq_true, decide_eq_true_eq] at hq
                  have hxq8 : xq < 8 := hlt2 xq hxqmem
                  have heq : (cx + xp) % 64 = (cx + xq) % 64 :=
                    hP.1.2.symm.trans hq.1.2
                  have : xp = xq :=
                    add_mod_inj (by omega) (by omega) heq
                  subst this
                  exact hxpl hxqmem
            simp [hcons, hP, hL]
      · have hcc : rowCollideL data cx cy yl
            (drawPixel cx cy yl data xp t).screenData l =
            rowCollideL data cx cy yl t.screenData l := by
          unfold rowCollideL
          apply anyCongr
          intro xq hxq
          have hxq8 : xq < 8 := hlt2 xq hxq
          have hne : (cx + xq) % 64 ≠ (cx + xp) % 64 := by
            intro heq
            have : xq = xp := add_mod_inj (by omega) (by omega) heq
            subst this
            exact hxpl hxq
          rw [drawPixel_screenData]
          simp [hne]
        have hcons2 : rowCollideL data cx cy yl t.screenData (xp :: l) =
            ((spriteBit data xp &&
                decide (t.screenData ((cx + xp) % 64) ((cy + yl) % 32) = 1)) ||
              rowCollideL data cx cy yl t.screenData l) := by
          simp [rowCollideL]
        rw [hstep, ihvf, hcc, drawPixel_registersF, hcons2]
        cases hA : (spriteBit data xp &&
            decide (t.screenData ((cx + xp) % 64) ((cy + yl) % 32) = 1)) <;>
          cases hB : rowCollideL data cx cy yl t.screenData l <;> simp [hA, hB]

/-- The outer row fold of `OpcodeDXYN` over an arbitrary list of rows. -/
def drawRowsL (cx cy : Nat) (L : List Nat) (s : Chip8) : Chip8 :=
  L.foldl (fun t yl => drawRow cx cy yl (t.gameMemory (t.addressI + yl)) t) s

/-- Effect of the whole sprite scan over a duplicate-free list of rows below
32: memory and the index register are untouched, each hit cell is toggled by
XOR, and VF becomes 1 exactly when some row collides with the screen as it
was when the scan started. -/
theorem drawRowsL_spec (cx cy : Nat) :
    ∀ (L : List Nat), L.Nodup → (∀ yl ∈ L, yl < 32) → ∀ (t : Chip8),
      (drawRowsL cx cy L t).gameMemory = t.gameMemory ∧
      (drawRowsL cx cy L t).addressI = t.addressI ∧
      (∀ a b, (drawRowsL cx cy L t).screenData a b =
        if drawHitL t.gameMemory t.addressI cx cy a b L then t.screenData a b ^^^ 1
        else t.screenData a b) ∧
      ((drawRowsL cx cy L t).registers 0xF =
        if drawCollideL t.gameMemory t.addressI cx cy t.screenData L then 1
        else t.registers 0xF) := by
  intro L
  induction L with
  | nil =>
      intro _ _ t
      exact ⟨rfl, rfl, fun a b => by simp [drawRowsL, drawHitL],
        by simp [drawRowsL, drawCollideL]⟩
  | cons yl L ih =>
      intro hnd hlt t
      have hyl32 : yl < 32 := hlt yl (List.mem_cons_self yl L)
      have hylL : yl ∉ L := (List.nodup_cons.mp hnd).1
      have hnd2 : L.Nodup := (List.nodup_cons.mp hnd).2
      have hlt2 : ∀ z ∈ L, z < 32 := fun z hz => hlt z (List.mem_cons_of_mem yl hz)
      have hrow := drawRowL_spec cx cy yl (t.gameMemory (t.addressI + yl))
        (List.range 8) (List.nodup_range 8) (fun z hz => List.mem_range.mp hz) t
      obtain ⟨hm1, hA1, hscr1, hvf1⟩ := hrow
      have hstep : drawRowsL cx cy (yl :: L) t =
          drawRowsL cx cy L
            (drawRowL cx cy yl (t.gameMemory (t.addressI + yl)) (List.range 8) t) := rfl
      obtain ⟨ihm, ihA, ihscr, ihvf⟩ :=
        ih hnd2 hlt2 (drawRowL cx cy yl (t.gameMemory (t.addressI + yl)) (List.range 8) t)
      have hyne : ∀ yl2 ∈ L, (cy + yl2) % 32 ≠ (cy + yl) % 32 := by
        intro yl2 hyl2 heq
        have : yl2 = yl := add_mod_inj (hlt2 yl2 hyl2) hyl32 heq
        subst this
        exact hylL hyl2
      refine ⟨?_, ?_, ?_, ?_⟩
      · rw [hstep, ihm, hm1]
      · rw [hstep, ihA, hA1]
      · intro a b
        rw [hstep, ihscr a b, hm1, hA1, hscr1 a b]
        have hcons : drawHitL t.gameMemory t.addressI cx cy a b (yl :: L) =
            (rowHit (t.gameMemory (t.addressI + yl)) cx cy yl a b ||
              drawHitL t.gameMemory t.addressI cx cy a b L) := by
          simp [drawHitL]
        cases hP : rowHit (t.gameMemory (t.addressI + yl)) cx cy yl a b with
        | false => simp only [rowHit] at hP; simp [hcons, hP, rowHit]
        | true =>
            have hL : drawHitL t.gameMemory t.addressI cx cy a b L = false := by
              cases hLc : drawHitL t.gameMemory t.addressI cx cy a b L with
              | false => rfl
              | true =>
                  exfalso
                  obtain ⟨yq, hyqmem, hq⟩ := List.any_eq_true.mp hLc
                  have hb1 : b = (cy + yl) % 32 := rowHitL_eq_y hP
                  have hb2 : b = (cy + yq) % 32 := rowHitL_eq_y hq
                  exact hyne yq hyqmem (hb2 ▸ hb1 ▸ rfl)
            simp only [rowHit] at hP
            simp [hcons, hP, hL, rowHit]
      · have hcc : drawCollideL t.gameMemory t.addressI cx cy
            (drawRowL cx cy yl (t.gameMemory (t.addressI + yl))
              (List.range 8) t).screenData L =
            drawCollideL t.gameMemory t.addressI cx cy t.screenData L := by
          unfold drawCollideL
          apply anyCongr
          intro yl2 hyl2
          unfold rowCollide rowCollideL
          apply anyCongr
          intro xp _
          rw [hscr1 ((cx + xp) % 64) ((cy + yl2) % 32),
            rowHitL_false_of_y (hyne yl2 hyl2)]
          simp
        have hcons2 : drawCollideL t.gameMemory t.addressI cx cy t.screenData
            (yl :: L) =
            (rowCollide (t.gameMemory (t.addressI + yl)) cx cy yl t.screenData ||
              drawCollideL t.gameMemory t.addressI cx cy t.screenData L) := by
          simp [drawCollideL]
        rw [hstep, ihvf, hm1, hA1, hcc, hvf1, hcons2]
        cases hA : rowCollideL (t.gameMemory (t.addressI + yl)) cx cy yl
            t.screenData (List.range 8) <;>
          cases hB : drawCollideL t.gameMemory t.addressI cx cy t.screenData L <;>
            simp [rowCollide, hA, hB]

/-- C3: for every draw instruction DXYN, after execution the flag register
VF equals 1 iff some XOR of this draw toggled a screen cell that held 1
(collision against the pre-draw screen), else 0 — in particular VF is
cleared before scanning, so a stale VF value never survives the draw — and
every screen cell is toggled by XOR exactly when some set sprite bit of the
N rows read from memory at the index register lands on it at coordinates
wrapped modulo 64 horizontally and modulo 32 vertically (never clamped);
all other cells keep their prior value. -/
theorem c3_drawSprite (op : Nat) (s : Chip8) :
    ((OpcodeDXYN op s).registers 0xF =
      if drawCollide s.gameMemory s.addressI (s.registers ((op &&& 0xF00) >>> 8))
          (s.registers ((op &&& 0x0F0) >>> 4)) (op &&& 0x00F) s.screenData
      then 1 else 0) ∧
    (∀ x y, (OpcodeDXYN op s).screenData x y =
      if drawHit s.gameMemory s.addressI (s.registers ((op &&& 0xF00) >>> 8))
          (s.registers ((op &&& 0x0F0) >>> 4)) (op &&& 0x00F) x y
      then s.screenData x y ^^^ 1 else s.screenData x y) := by
  have hbound : ∀ yl ∈ List.range (op &&& 0x00F), yl < 32 := by
    intro yl hyl
    have h1 : yl < op &&& 0x00F := List.mem_range.mp hyl
    have h2 : op &&& 0x00F ≤ 0x00F := Nat.and_le_right
    omega
  obtain ⟨hm, hA, hscr, hvf⟩ :=
    drawRowsL_spec (s.registers ((op &&& 0xF00) >>> 8))
      (s.registers ((op &&& 0x0F0) >>> 4)) (List.range (op &&& 0x00F))
      (List.nodup_range _) hbound { s with registers := upd s.registers 0xF 0 }
  have hdef : OpcodeDXYN op s =
      drawRowsL (s.registers ((op &&& 0xF00) >>> 8))
        (s.registers ((op &&& 0x0F0) >>> 4)) (List.range (op &&& 0x00F))
        { s with registers := upd s.registers 0xF 0 } := rfl
  constructor
  · rw [hdef, hvf]
    simp [drawCollide, upd_same]
  · intro x y
    rw [hdef, hscr x y]
    simp [drawHit]

end Chip8Emu
